import Mathlib

/-!
Verification of the ultimate tic-tac-toe engine (src/tic-tac-toe.py).

The 3x3 boards of the Python code (numpy int arrays) are embedded as
functions of type Fin 3 → Fin 3 → Int; a cell holds 0 when empty, the mark
value of a player otherwise (the two module-level players carry values 1
and -1, and the scratch search marks tried cells with the sentinel 101).
The global random source (random.randint / random.choice) is embedded as an
explicit list of natural numbers threaded through the operations: each draw
consumes the head of the list (an exhausted list yields 0), and a draw meant
to produce an index below n is taken modulo n, so every behaviour of the
Python program corresponds to some list and conversely.
-/

set_option synthInstance.maxSize 1024

namespace TicTacToe

/-- Mirror of the Python dataclass Player (name plus mark value). -/
structure Player where
  name : String
  property_value : Int
deriving DecidableEq

/-- Mirror of the Python Status enum returned by fill_cell. -/
inductive Status where
  | OFFENSE
  | DEFENSE
  | RANDOM
  | FULL
deriving DecidableEq

/-- Module-level player P1 (value 1), as created in the program entry point. -/
def P1 : Player := ⟨"Bot1", 1⟩

/-- Module-level player P2 (value -1), as created in the program entry point. -/
def P2 : Player := ⟨"Bot2", -1⟩

/-- The sentinel player used by the scratch searches to mark tried cells. -/
def attempts_tracker : Player := ⟨"Tracker", 101⟩

/-- A cell position of a 3x3 grid. -/
abbrev Pos := Fin 3 × Fin 3

/-- A 3x3 grid of integer marks (instance board, or the meta results grid). -/
abbrev Board := Fin 3 → Fin 3 → Int

/-- The meta board: a 3x3 grid of instance boards. -/
abbrev MetaBoard := Fin 3 → Fin 3 → Board

/-- create_board: a 3x3 board initialised to zero. -/
def create_board : Board := fun _ _ => 0

/-- All nine positions of a 3x3 grid in row-major order (numpy argwhere order). -/
def all_positions : List Pos :=
  (List.finRange 3).flatMap fun i => (List.finRange 3).map fun j => (i, j)

/-- find_available_cells: indices of all cells holding 0, in row-major order. -/
def find_available_cells (b : Board) : List Pos :=
  all_positions.filter fun c => b c.1 c.2 == 0

/-- Draw one value from the random source (an exhausted source yields 0). -/
def take_rand : List Nat → Nat × List Nat
  | [] => (0, [])
  | r :: rs => (r, rs)

/-- pick_cell_randomly: pick a random available cell, or none when the board
is full.  The random draw happens only when a cell is available, exactly as
in the Python code. -/
def pick_cell_randomly (b : Board) (rs : List Nat) : Option Pos × List Nat :=
  let cells := find_available_cells b
  if h : 0 < cells.length then
    let r := (take_rand rs).1
    (some (cells.get ⟨r % cells.length, Nat.mod_lt _ h⟩), (take_rand rs).2)
  else (none, rs)

/-- assign_cell: write the player's mark value at the given cell. -/
def assign_cell (b : Board) (c : Pos) (p : Player) : Board :=
  fun i j => if (i, j) = c then p.property_value else b i j

/-- check_winner: true when some row, some column, or one of the two
diagonals holds the player's value everywhere, mirroring the three numpy
checks of the source. -/
def check_winner (b : Board) (p : Player) : Bool :=
  let v := p.property_value
  let row_check :=
    (decide (b 0 0 = v) && decide (b 0 1 = v) && decide (b 0 2 = v)) ||
    (decide (b 1 0 = v) && decide (b 1 1 = v) && decide (b 1 2 = v)) ||
    (decide (b 2 0 = v) && decide (b 2 1 = v) && decide (b 2 2 = v))
  let column_check :=
    (decide (b 0 0 = v) && decide (b 1 0 = v) && decide (b 2 0 = v)) ||
    (decide (b 0 1 = v) && decide (b 1 1 = v) && decide (b 2 1 = v)) ||
    (decide (b 0 2 = v) && decide (b 1 2 = v) && decide (b 2 2 = v))
  let diagonal_check :=
    (decide (b 0 2 = v) && decide (b 1 1 = v) && decide (b 2 0 = v)) ||
    (decide (b 0 0 = v) && decide (b 1 1 = v) && decide (b 2 2 = v))
  row_check || column_check || diagonal_check

/-- The eight winning lines of a 3x3 grid. -/
def lines : List (List Pos) :=
  [[(0, 0), (0, 1), (0, 2)],
   [(1, 0), (1, 1), (1, 2)],
   [(2, 0), (2, 1), (2, 2)],
   [(0, 0), (1, 0), (2, 0)],
   [(0, 1), (1, 1), (2, 1)],
   [(0, 2), (1, 2), (2, 2)],
   [(0, 2), (1, 1), (2, 0)],
   [(0, 0), (1, 1), (2, 2)]]

/-- The shared scratch-copy search of offensive_move and defensive_move:
repeatedly pick an available cell of the scratch board, place the
hypothetical player's mark there, and test check_winner for that player; on
success commit the cell on the real board with the mover's mark, otherwise
overwrite the tried scratch cell with the tracker sentinel and continue.
The fuel argument only bounds the iteration count; nine units always cover
the at most nine available cells, and at fuel 0 the available list is empty
in every reachable call, where the returned value agrees with the source
(no cell available, no draw consumed, no mutation, result False). -/
def scan_for_win : Nat → Board → Board → Player → Player → List Nat → Board × Bool × List Nat
  | 0, board, _, _, _, rs => (board, false, rs)
  | fuel + 1, board, scratch, mover, hypo, rs =>
    match pick_cell_randomly scratch rs with
    | (none, rs') => (board, false, rs')
    | (some c, rs') =>
      let scratch1 := assign_cell scratch c hypo
      if check_winner scratch1 hypo then
        (assign_cell board c mover, true, rs')
      else
        scan_for_win fuel board (assign_cell scratch1 c attempts_tracker) mover hypo rs'

/-- offensive_move: search for an immediately winning cell for the player on
a private copy of the board, committing it on the real board when found. -/
def offensive_move (b : Board) (p : Player) (rs : List Nat) : Board × Bool × List Nat :=
  scan_for_win 9 b b p p rs

/-- The opponent used by defensive_move: P2 when the acting player's value
equals 1, the module-level P1 otherwise. -/
def choose_opponent (p : Player) : Player :=
  if p.property_value = 1 then P2 else P1

/-- defensive_move: search for a cell where the (module-level) opponent
would win, committing the acting player's own mark there when found. -/
def defensive_move (b : Board) (p : Player) (rs : List Nat) : Board × Bool × List Nat :=
  scan_for_win 9 b b p (choose_opponent p) rs

/-- random_move: place the player's mark on a random available cell. -/
def random_move (b : Board) (p : Player) (rs : List Nat) : Board × Bool × List Nat :=
  match pick_cell_randomly b rs with
  | (some c, rs') => (assign_cell b c p, true, rs')
  | (none, rs') => (b, false, rs')

/-- fill_cell: try the offensive, defensive and random tiers in order,
reporting which tier acted, or FULL when none could. -/
def fill_cell (b : Board) (p : Player) (rs : List Nat) : Board × Status × List Nat :=
  match offensive_move b p rs with
  | (b1, true, rs1) => (b1, Status.OFFENSE, rs1)
  | (b1, false, rs1) =>
    match defensive_move b1 p rs1 with
    | (b2, true, rs2) => (b2, Status.DEFENSE, rs2)
    | (b2, false, rs2) =>
      match random_move b2 p rs2 with
      | (b3, true, rs3) => (b3, Status.RANDOM, rs3)
      | (b3, false, rs3) => (b3, Status.FULL, rs3)

/-- Specification-side predicate: some currently empty cell is such that
placing the player's mark there makes check_winner true for that player. -/
def exists_winning_cell (b : Board) (p : Player) : Bool :=
  (find_available_cells b).any fun c => check_winner (assign_cell b c p) p

/-- choose_player: pick a random starting player, or the opponent of the
player who just moved.  Only the initial choice consumes a random draw. -/
def choose_player : Option Player → List Nat → Player × List Nat
  | some p, rs => (if p.property_value = 1 then P2 else P1, rs)
  | none, rs =>
    let r := (take_rand rs).1
    (if r % 2 = 0 then P1 else P2, (take_rand rs).2)

/-- is_board_complete: every cell of the grid is non-zero. -/
def is_board_complete (b : Board) : Bool :=
  decide (∀ i j, b i j ≠ 0)

/-- reset_board: replace the instance board at the given meta position with a
fresh board and zero its entry in the meta results grid. -/
def reset_board (mb : MetaBoard) (mr : Board) (pos : Pos) : MetaBoard × Board :=
  (fun i j => if (i, j) = pos then create_board else mb i j,
   fun i j => if (i, j) = pos then 0 else mr i j)

/-- update_meta_results: record the player's value at the given meta position. -/
def update_meta_results (mr : Board) (pos : Pos) (p : Player) : Board :=
  fun i j => if (i, j) = pos then p.property_value else mr i j

/-- choose_board: draw a random meta position; when the whole meta results
grid is complete, first reset the instance at the drawn position; return the
drawn position when its meta result is zero, otherwise retry recursively.
Each retry consumes two random draws (a final one-element list supplies 0
for the second draw), so the random list bounds the number of retries; an
exhausted list yields none (the Python original would keep retrying on
further randomness). -/
def choose_board : MetaBoard → Board → List Nat → Option (MetaBoard × Board × Pos × List Nat)
  | _, _, [] => none
  | mb, mr, [rx] =>
    let x : Fin 3 := ⟨rx % 3, by omega⟩
    let y : Fin 3 := ⟨0 % 3, by omega⟩
    let st := if is_board_complete mr then reset_board mb mr (x, y) else (mb, mr)
    if st.2 x y = 0 then some (st.1, st.2, (x, y), [])
    else choose_board st.1 st.2 []
  | mb, mr, rx :: ry :: rs' =>
    let x : Fin 3 := ⟨rx % 3, by omega⟩
    let y : Fin 3 := ⟨ry % 3, by omega⟩
    let st := if is_board_complete mr then reset_board mb mr (x, y) else (mb, mr)
    if st.2 x y = 0 then some (st.1, st.2, (x, y), rs')
    else choose_board st.1 st.2 rs'

/-- The meta-result resolution performed inline by the bot driver after each
move: a FULL outcome resets the instance at the position, an OFFENSE outcome
records the player's value there, the other outcomes change nothing. -/
def resolve (mb : MetaBoard) (mr : Board) (pos : Pos) (status : Status) (p : Player) :
    MetaBoard × Board :=
  match status with
  | Status.FULL => reset_board mb mr pos
  | Status.OFFENSE => (mb, update_meta_results mr pos p)
  | _ => (mb, mr)

/-- The while loop of play_meta_game_bots: while neither module player has a
winning line on the meta results grid, resolve the previous move, switch
players, choose an active instance board and apply a move to it; on exit
report P2 when it holds a line, P1 otherwise.  The final meta board and meta
results grid are returned with the winner; fuel bounds the number of loop
iterations and none is returned when fuel or randomness runs out. -/
def play_loop : Nat → MetaBoard → Board → Player → Pos → Status → List Nat →
    Option (Player × MetaBoard × Board)
  | 0, mb, mr, _, _, _, _ =>
    if check_winner mr P1 = false ∧ check_winner mr P2 = false then none
    else if check_winner mr P2 = true then some (P2, mb, mr) else some (P1, mb, mr)
  | f + 1, mb, mr, player, pos, status, rs =>
    if check_winner mr P1 = false ∧ check_winner mr P2 = false then
      let st1 := resolve mb mr pos status player
      let pl1 := (choose_player (some player) rs).1
      let rs1 := (choose_player (some player) rs).2
      match choose_board st1.1 st1.2 rs1 with
      | none => none
      | some (mb2, mr2, pos2, rs2) =>
        let fc := fill_cell (mb2 pos2.1 pos2.2) pl1 rs2
        play_loop f (fun i j => if (i, j) = pos2 then fc.1 else mb2 i j) mr2 pl1 pos2
          fc.2.1 fc.2.2
    else if check_winner mr P2 = true then some (P2, mb, mr) else some (P1, mb, mr)

/-- play_meta_game_bots: fresh meta board, random first player, then one
move followed by the driver loop. -/
def play_meta_game_bots (fuel : Nat) (rs : List Nat) : Option (Player × MetaBoard × Board) :=
  let mb0 : MetaBoard := fun _ _ => create_board
  let mr0 : Board := create_board
  let p0 := (choose_player none rs).1
  let rs1 := (choose_player none rs).2
  match choose_board mb0 mr0 rs1 with
  | none => none
  | some (mb1, mr1, pos, rs2) =>
    let fc := fill_cell (mb1 pos.1 pos.2) p0 rs2
    play_loop fuel (fun i j => if (i, j) = pos then fc.1 else mb1 i j) mr1 p0 pos fc.2.1 fc.2.2

/-- Relation between the real board and the scratch copy maintained by the
searches: each cell is untouched, or was empty and now holds the sentinel. -/
def scratch_ok (b s : Board) : Prop :=
  ∀ i j, s i j = b i j ∨ (b i j = 0 ∧ s i j = 101)

/-- C1 witness input: a board with two of the acting player's marks on the
top row and the third cell empty. -/
def board_w1 : Board := fun i j =>
  if (i, j) = ((0 : Fin 3), (0 : Fin 3)) then 1 else
  if (i, j) = ((0 : Fin 3), (1 : Fin 3)) then 1 else 0

/-- C1 counterexample input: a board with two sentinel marks already placed. -/
def board_c1 : Board := fun i j =>
  if (i, j) = ((0 : Fin 3), (0 : Fin 3)) then 101 else
  if (i, j) = ((0 : Fin 3), (1 : Fin 3)) then 101 else 0

/-- C2 witness input: a board where the opponent P2 holds two cells of the
middle row with the third cell empty. -/
def board_w2 : Board := fun i j =>
  if (i, j) = ((1 : Fin 3), (0 : Fin 3)) then -1 else
  if (i, j) = ((1 : Fin 3), (1 : Fin 3)) then -1 else 0

/-- C7 witness input: a completely full board. -/
def board_w7 : Board := fun _ _ => 1

/-- C10 input: a board on which the mark value -1 (P2) has an immediate
winning placement on the top row. -/
def board_c10 : Board := fun i j =>
  if (i, j) = ((0 : Fin 3), (0 : Fin 3)) then -1 else
  if (i, j) = ((0 : Fin 3), (1 : Fin 3)) then -1 else 0

/-- C10 input: an acting player whose mark value 2 is neither 1 nor -1. -/
def playerQ : Player := ⟨"Q", 2⟩

/-- The all-fresh meta board used by concrete meta-game scenarios. -/
def meta_board0 : MetaBoard := fun _ _ => create_board

/-- C9 counterexample input: a meta results grid with exactly one decided
position, so the grid is not fully decided and eight positions are Empty. -/
def mr_c9 : Board := fun i j => if (i, j) = ((0 : Fin 3), (0 : Fin 3)) then 1 else 0

/-- An instance board with eight cells filled and no immediate win or block
available: only the cell (2,2) is empty, and neither mark value completes a
line there. -/
def board_c6i : Board := fun i j =>
  if (i, j) = ((0 : Fin 3), (0 : Fin 3)) then 1 else
  if (i, j) = ((0 : Fin 3), (1 : Fin 3)) then -1 else
  if (i, j) = ((0 : Fin 3), (2 : Fin 3)) then 1 else
  if (i, j) = ((1 : Fin 3), (0 : Fin 3)) then 1 else
  if (i, j) = ((1 : Fin 3), (1 : Fin 3)) then -1 else
  if (i, j) = ((1 : Fin 3), (2 : Fin 3)) then -1 else
  if (i, j) = ((2 : Fin 3), (0 : Fin 3)) then -1 else
  if (i, j) = ((2 : Fin 3), (1 : Fin 3)) then 1 else 0

/-- C6 counterexample meta board: every instance holds board_c6i. -/
def mb_c6 : MetaBoard := fun _ _ => board_c6i

/-- C6 counterexample meta results: P1 holds (0,0) and (0,1); the pending
OFFENSE move at (0,2) completes P1's top meta row once resolved. -/
def mr_c6 : Board := fun i j =>
  if (i, j) = ((0 : Fin 3), (0 : Fin 3)) then 1 else
  if (i, j) = ((0 : Fin 3), (1 : Fin 3)) then 1 else 0

/-- C6 counterexample random sequence: choose_board draws position (1,0),
then the three draws of fill_cell pick the lone empty cell. -/
def rs_c6 : List Nat := [1, 0, 0, 0, 0]

/-- The meta results grid used by the C6 witness: P1 already holds the top
meta row. -/
def mr_w6 : Board := fun i _ => if i = (0 : Fin 3) then 1 else 0


theorem length_filter_lt {α : Type} (l : List α) (p : α → Bool) (x : α)
    (hx : x ∈ l) (hp : p x = false) : (l.filter p).length < l.length := by
  induction l with
  | nil => simp at hx
  | cons a t ih =>
    rcases List.mem_cons.mp hx with h | h
    · subst h
      simp only [List.filter_cons, hp, if_neg Bool.false_ne_true, List.length_cons]
      exact Nat.lt_succ_of_le (List.length_filter_le p t)
    · by_cases hpa : p a = true
      · simp only [List.filter_cons, hpa, if_pos rfl, List.length_cons]
        exact Nat.succ_lt_succ (ih h)
      · simp only [List.filter_cons, Bool.eq_false_iff.mpr hpa,
          if_neg Bool.false_ne_true, List.length_cons]
        exact Nat.lt_succ_of_lt (ih h)

theorem mem_all_positions (c : Pos) : c ∈ all_positions := by
  fin_cases c <;> decide

theorem all_positions_length : all_positions.length = 9 := by decide

theorem mem_avail_iff (b : Board) (c : Pos) :
    c ∈ find_available_cells b ↔ b c.1 c.2 = 0 := by
  unfold find_available_cells
  rw [List.mem_filter]
  simp [mem_all_positions]

theorem avail_length_le (b : Board) : (find_available_cells b).length ≤ 9 := by
  calc (find_available_cells b).length ≤ all_positions.length :=
        List.length_filter_le _ _
    _ = 9 := all_positions_length

theorem check_winner_mono (b1 b2 : Board) (p : Player)
    (h : ∀ i j, b1 i j = p.property_value → b2 i j = p.property_value)
    (hw : check_winner b1 p = true) : check_winner b2 p = true := by
  simp only [check_winner, Bool.or_eq_true, Bool.and_eq_true, decide_eq_true_eq] at hw ⊢
  rcases hw with
    (((⟨⟨h1, h2⟩, h3⟩ | ⟨⟨h1, h2⟩, h3⟩) | ⟨⟨h1, h2⟩, h3⟩) |
     ((⟨⟨h1, h2⟩, h3⟩ | ⟨⟨h1, h2⟩, h3⟩) | ⟨⟨h1, h2⟩, h3⟩)) |
    (⟨⟨h1, h2⟩, h3⟩ | ⟨⟨h1, h2⟩, h3⟩)
  · exact Or.inl (Or.inl (Or.inl (Or.inl ⟨⟨h _ _ h1, h _ _ h2⟩, h _ _ h3⟩)))
  · exact Or.inl (Or.inl (Or.inl (Or.inr ⟨⟨h _ _ h1, h _ _ h2⟩, h _ _ h3⟩)))
  · exact Or.inl (Or.inl (Or.inr ⟨⟨h _ _ h1, h _ _ h2⟩, h _ _ h3⟩))
  · exact Or.inl (Or.inr (Or.inl (Or.inl ⟨⟨h _ _ h1, h _ _ h2⟩, h _ _ h3⟩)))
  · exact Or.inl (Or.inr (Or.inl (Or.inr ⟨⟨h _ _ h1, h _ _ h2⟩, h _ _ h3⟩)))
  · exact Or.inl (Or.inr (Or.inr ⟨⟨h _ _ h1, h _ _ h2⟩, h _ _ h3⟩))
  · exact Or.inr (Or.inl ⟨⟨h _ _ h1, h _ _ h2⟩, h _ _ h3⟩)
  · exact Or.inr (Or.inr ⟨⟨h _ _ h1, h _ _ h2⟩, h _ _ h3⟩)

theorem check_winner_iff (b : Board) (p : Player) :
    check_winner b p = true ↔
      ∃ l ∈ lines, ∀ c ∈ l, b c.1 c.2 = p.property_value := by
  constructor
  · simp only [check_winner, Bool.or_eq_true, Bool.and_eq_true, decide_eq_true_eq]
    rintro
      ((((⟨⟨h1, h2⟩, h3⟩ | ⟨⟨h1, h2⟩, h3⟩) | ⟨⟨h1, h2⟩, h3⟩) |
       ((⟨⟨h1, h2⟩, h3⟩ | ⟨⟨h1, h2⟩, h3⟩) | ⟨⟨h1, h2⟩, h3⟩)) |
      (⟨⟨h1, h2⟩, h3⟩ | ⟨⟨h1, h2⟩, h3⟩))
    · exact ⟨[(0, 0), (0, 1), (0, 2)], by decide, by
        intro c hc
        fin_cases hc <;> assumption⟩
    · exact ⟨[(1, 0), (1, 1), (1, 2)], by decide, by
        intro c hc
        fin_cases hc <;> assumption⟩
    · exact ⟨[(2, 0), (2, 1), (2, 2)], by decide, by
        intro c hc
        fin_cases hc <;> assumption⟩
    · exact ⟨[(0, 0), (1, 0), (2, 0)], by decide, by
        intro c hc
        fin_cases hc <;> assumption⟩
    · exact ⟨[(0, 1), (1, 1), (2, 1)], by decide, by
        intro c hc
        fin_cases hc <;> assumption⟩
    · exact ⟨[(0, 2), (1, 2), (2, 2)], by decide, by
        intro c hc
        fin_cases hc <;> assumption⟩
    · exact ⟨[(0, 2), (1, 1), (2, 0)], by decide, by
        intro c hc
        fin_cases hc <;> assumption⟩
    · exact ⟨[(0, 0), (1, 1), (2, 2)], by decide, by
        intro c hc
        fin_cases hc <;> assumption⟩
  · rintro ⟨l, hl, hall⟩
    simp only [lines, List.mem_cons, List.not_mem_nil, or_false] at hl
    simp only [check_winner, Bool.or_eq_true, Bool.and_eq_true, decide_eq_true_eq]
    rcases hl with rfl | rfl | rfl | rfl | rfl | rfl | rfl | rfl
    · exact Or.inl (Or.inl (Or.inl (Or.inl ⟨⟨hall ((0 : Fin 3), (0 : Fin 3)) (by decide),
        hall ((0 : Fin 3), (1 : Fin 3)) (by decide)⟩, hall ((0 : Fin 3), (2 : Fin 3)) (by decide)⟩)))
    · exact Or.inl (Or.inl (Or.inl (Or.inr ⟨⟨hall ((1 : Fin 3), (0 : Fin 3)) (by decide),
        hall ((1 : Fin 3), (1 : Fin 3)) (by decide)⟩, hall ((1 : Fin 3), (2 : Fin 3)) (by decide)⟩)))
    · exact Or.inl (Or.inl (Or.inr ⟨⟨hall ((2 : Fin 3), (0 : Fin 3)) (by decide),
        hall ((2 : Fin 3), (1 : Fin 3)) (by decide)⟩, hall ((2 : Fin 3), (2 : Fin 3)) (by decide)⟩))
    · exact Or.inl (Or.inr (Or.inl (Or.inl ⟨⟨hall ((0 : Fin 3), (0 : Fin 3)) (by decide),
        hall ((1 : Fin 3), (0 : Fin 3)) (by decide)⟩, hall ((2 : Fin 3), (0 : Fin 3)) (by decide)⟩)))
    · exact Or.inl (Or.inr (Or.inl (Or.inr ⟨⟨hall ((0 : Fin 3), (1 : Fin 3)) (by decide),
        hall ((1 : Fin 3), (1 : Fin 3)) (by decide)⟩, hall ((2 : Fin 3), (1 : Fin 3)) (by decide)⟩)))
    · exact Or.inl (Or.inr (Or.inr ⟨⟨hall ((0 : Fin 3), (2 : Fin 3)) (by decide),
        hall ((1 : Fin 3), (2 : Fin 3)) (by decide)⟩, hall ((2 : Fin 3), (2 : Fin 3)) (by decide)⟩))
    · exact Or.inr (Or.inl ⟨⟨hall ((0 : Fin 3), (2 : Fin 3)) (by decide),
        hall ((1 : Fin 3), (1 : Fin 3)) (by decide)⟩, hall ((2 : Fin 3), (0 : Fin 3)) (by decide)⟩)
    · exact Or.inr (Or.inr ⟨⟨hall ((0 : Fin 3), (0 : Fin 3)) (by decide),
        hall ((1 : Fin 3), (1 : Fin 3)) (by decide)⟩, hall ((2 : Fin 3), (2 : Fin 3)) (by decide)⟩)

theorem assign_cell_self (b : Board) (c : Pos) (p : Player) :
    (assign_cell b c p) c.1 c.2 = p.property_value := by
  simp [assign_cell]

theorem assign_cell_other (b : Board) (c : Pos) (p : Player) (i j : Fin 3)
    (h : ((i, j) : Pos) ≠ c) : (assign_cell b c p) i j = b i j := by
  simp [assign_cell, h]

theorem assign_assign (b : Board) (c : Pos) (p q : Player) :
    assign_cell (assign_cell b c p) c q = assign_cell b c q := by
  funext i j
  by_cases h : ((i, j) : Pos) = c <;> simp [assign_cell, h]

theorem assign_cell_id (b : Board) (c : Pos) (p : Player)
    (hv : p.property_value = 0) (hc : b c.1 c.2 = 0) : assign_cell b c p = b := by
  funext i j
  by_cases h : ((i, j) : Pos) = c
  · have h1 : i = c.1 := by rw [← h]
    have h2 : j = c.2 := by rw [← h]
    simp [assign_cell, h, hv, h1, h2, hc.symm]
  · simp [assign_cell, h]

theorem scratch_ok_refl (b : Board) : scratch_ok b b := fun _ _ => Or.inl rfl

theorem scratch_ok_assign_tracker (b s : Board) (c : Pos)
    (hs : scratch_ok b s) (hc : b c.1 c.2 = 0) :
    scratch_ok b (assign_cell s c attempts_tracker) := by
  intro i j
  by_cases h : ((i, j) : Pos) = c
  · have h1 : i = c.1 := by rw [← h]
    have h2 : j = c.2 := by rw [← h]
    right
    refine ⟨by rw [h1, h2]; exact hc, ?_⟩
    simp [assign_cell, h, attempts_tracker]
  · rw [assign_cell_other _ _ _ _ _ h]
    exact hs i j

theorem transfer_down (b s : Board) (c : Pos) (p : Player)
    (hv : p.property_value ≠ 101) (hs : scratch_ok b s)
    (h : check_winner (assign_cell s c p) p = true) :
    check_winner (assign_cell b c p) p = true := by
  refine check_winner_mono _ _ p (fun i j hij => ?_) h
  by_cases hc : ((i, j) : Pos) = c
  · simp only [assign_cell, if_pos hc]
  · rw [assign_cell_other _ _ _ _ _ hc] at hij
    rw [assign_cell_other _ _ _ _ _ hc]
    rcases hs i j with h' | ⟨hb, h101⟩
    · rw [← h']; exact hij
    · rw [h101] at hij
      exact absurd hij.symm hv

theorem transfer_up (b s : Board) (c : Pos) (p : Player)
    (hv : p.property_value ≠ 0) (hs : scratch_ok b s)
    (h : check_winner (assign_cell b c p) p = true) :
    check_winner (assign_cell s c p) p = true := by
  refine check_winner_mono _ _ p (fun i j hij => ?_) h
  by_cases hc : ((i, j) : Pos) = c
  · simp only [assign_cell, if_pos hc]
  · rw [assign_cell_other _ _ _ _ _ hc] at hij
    rw [assign_cell_other _ _ _ _ _ hc]
    rcases hs i j with h' | ⟨hb, h101⟩
    · rw [h']; exact hij
    · rw [hb] at hij
      exact absurd hij.symm hv

theorem pick_some_mem (b : Board) (rs rs' : List Nat) (c : Pos)
    (h : pick_cell_randomly b rs = (some c, rs')) : c ∈ find_available_cells b := by
  rw [pick_cell_randomly] at h
  dsimp only at h
  split at h
  · simp only [Prod.mk.injEq, Option.some.injEq] at h
    rw [← h.1]
    exact List.get_mem _ _ _
  · simp at h

theorem pick_none_of_nil (b : Board) (rs : List Nat)
    (h : find_available_cells b = []) : pick_cell_randomly b rs = (none, rs) := by
  unfold pick_cell_randomly
  rw [dif_neg]
  rw [h]
  simp

theorem pick_fst_none (b : Board) (rs : List Nat)
    (h : (pick_cell_randomly b rs).1 = none) : find_available_cells b = [] := by
  rw [pick_cell_randomly] at h
  dsimp only at h
  split at h
  · simp at h
  · exact List.length_eq_zero.mp (by omega)

theorem avail_assign_tracker (s : Board) (c : Pos) :
    find_available_cells (assign_cell s c attempts_tracker)
      = (find_available_cells s).filter fun x => decide (x ≠ c) := by
  unfold find_available_cells
  rw [List.filter_filter]
  apply List.filter_congr
  intro x _
  by_cases hxc : x = c
  · subst hxc
    simp [assign_cell, attempts_tracker]
  · have : ((x.1, x.2) : Pos) ≠ c := by
      rw [Prod.mk.eta]
      exact hxc
    simp [assign_cell, this, hxc]

theorem avail_tracker_length (s : Board) (c : Pos) (hc : c ∈ find_available_cells s) :
    (find_available_cells (assign_cell s c attempts_tracker)).length
      < (find_available_cells s).length := by
  rw [avail_assign_tracker]
  exact length_filter_lt _ _ c hc (by simp)

theorem mem_avail_tracker (s : Board) (c x : Pos)
    (hx : x ∈ find_available_cells s) (hxc : x ≠ c) :
    x ∈ find_available_cells (assign_cell s c attempts_tracker) := by
  rw [avail_assign_tracker]
  exact List.mem_filter.mpr ⟨hx, by simp [hxc]⟩

theorem scan_zero (b s : Board) (m h : Player) (rs : List Nat) :
    scan_for_win 0 b s m h rs = (b, false, rs) := rfl

theorem scan_succ_none (fuel : Nat) (b s : Board) (m h : Player) (rs rs' : List Nat)
    (hp : pick_cell_randomly s rs = (none, rs')) :
    scan_for_win (fuel + 1) b s m h rs = (b, false, rs') := by
  rw [scan_for_win, hp]

theorem scan_succ_win (fuel : Nat) (b s : Board) (m h : Player) (rs rs' : List Nat) (c : Pos)
    (hp : pick_cell_randomly s rs = (some c, rs'))
    (hw : check_winner (assign_cell s c h) h = true) :
    scan_for_win (fuel + 1) b s m h rs = (assign_cell b c m, true, rs') := by
  rw [scan_for_win, hp]
  simp [hw]

theorem scan_succ_step (fuel : Nat) (b s : Board) (m h : Player) (rs rs' : List Nat) (c : Pos)
    (hp : pick_cell_randomly s rs = (some c, rs'))
    (hw : check_winner (assign_cell s c h) h = false) :
    scan_for_win (fuel + 1) b s m h rs
      = scan_for_win fuel b (assign_cell s c attempts_tracker) m h rs' := by
  rw [scan_for_win, hp]
  simp [hw, assign_assign]

theorem scan_false_fst : ∀ (fuel : Nat) (b s : Board) (m h : Player) (rs : List Nat),
    (scan_for_win fuel b s m h rs).2.1 = false → (scan_for_win fuel b s m h rs).1 = b := by
  intro fuel
  induction fuel with
  | zero => intro b s m h rs _; rfl
  | succ f ih =>
    intro b s m h rs hfalse
    rcases hp : pick_cell_randomly s rs with ⟨o, rs'⟩
    cases o with
    | none => rw [scan_succ_none f b s m h rs rs' hp]
    | some c =>
      by_cases hw : check_winner (assign_cell s c h) h = true
      · rw [scan_succ_win f b s m h rs rs' c hp hw] at hfalse
        simp at hfalse
      · rw [Bool.not_eq_true] at hw
        rw [scan_succ_step f b s m h rs rs' c hp hw] at hfalse ⊢
        exact ih b _ m h rs' hfalse

theorem scan_commit : ∀ (fuel : Nat) (b s : Board) (m h : Player) (rs : List Nat),
    scratch_ok b s → (scan_for_win fuel b s m h rs).2.1 = true →
    ∃ c : Pos, b c.1 c.2 = 0 ∧ (scan_for_win fuel b s m h rs).1 = assign_cell b c m := by
  intro fuel
  induction fuel with
  | zero =>
    intro b s m h rs _ ht
    rw [scan_zero] at ht
    simp at ht
  | succ f ih =>
    intro b s m h rs hs ht
    rcases hp : pick_cell_randomly s rs with ⟨o, rs'⟩
    cases o with
    | none =>
      rw [scan_succ_none f b s m h rs rs' hp] at ht
      simp at ht
    | some c =>
      have hcav : c ∈ find_available_cells s := pick_some_mem s rs rs' c hp
      have hsc : s c.1 c.2 = 0 := (mem_avail_iff s c).mp hcav
      have hbc : b c.1 c.2 = 0 := by
        rcases hs c.1 c.2 with h' | ⟨hb, _⟩
        · rw [← h']; exact hsc
        · exact hb
      by_cases hw : check_winner (assign_cell s c h) h = true
      · rw [scan_succ_win f b s m h rs rs' c hp hw]
        exact ⟨c, hbc, rfl⟩
      · rw [Bool.not_eq_true] at hw
        rw [scan_succ_step f b s m h rs rs' c hp hw] at ht ⊢
        exact ih b _ m h rs' (scratch_ok_assign_tracker b s c hs hbc) ht

theorem scan_win_sound : ∀ (fuel : Nat) (b s : Board) (m h : Player) (rs : List Nat),
    scratch_ok b s → h.property_value ≠ 101 →
    (scan_for_win fuel b s m h rs).2.1 = true →
    ∃ c : Pos, b c.1 c.2 = 0 ∧ (scan_for_win fuel b s m h rs).1 = assign_cell b c m ∧
      check_winner (assign_cell b c h) h = true := by
  intro fuel
  induction fuel with
  | zero =>
    intro b s m h rs _ _ ht
    rw [scan_zero] at ht
    simp at ht
  | succ f ih =>
    intro b s m h rs hs hv ht
    rcases hp : pick_cell_randomly s rs with ⟨o, rs'⟩
    cases o with
    | none =>
      rw [scan_succ_none f b s m h rs rs' hp] at ht
      simp at ht
    | some c =>
      have hcav : c ∈ find_available_cells s := pick_some_mem s rs rs' c hp
      have hsc : s c.1 c.2 = 0 := (mem_avail_iff s c).mp hcav
      have hbc : b c.1 c.2 = 0 := by
        rcases hs c.1 c.2 with h' | ⟨hb, _⟩
        · rw [← h']; exact hsc
        · exact hb
      by_cases hw : check_winner (assign_cell s c h) h = true
      · rw [scan_succ_win f b s m h rs rs' c hp hw]
        exact ⟨c, hbc, rfl, transfer_down b s c h hv hs hw⟩
      · rw [Bool.not_eq_true] at hw
        rw [scan_succ_step f b s m h rs rs' c hp hw] at ht ⊢
        exact ih b _ m h rs' (scratch_ok_assign_tracker b s c hs hbc) hv ht

theorem scan_complete : ∀ (fuel : Nat) (b s : Board) (m h : Player) (rs : List Nat),
    scratch_ok b s → h.property_value ≠ 0 → h.property_value ≠ 101 →
    (find_available_cells s).length ≤ fuel →
    (∃ c ∈ find_available_cells s, check_winner (assign_cell b c h) h = true) →
    (scan_for_win fuel b s m h rs).2.1 = true := by
  intro fuel
  induction fuel with
  | zero =>
    intro b s m h rs _ _ _ hlen hw
    rcases hw with ⟨w, hwav, _⟩
    rw [List.length_eq_zero.mp (Nat.le_zero.mp hlen)] at hwav
    simp at hwav
  | succ f ih =>
    intro b s m h rs hs hv0 hv hlen hex
    rcases hex with ⟨w, hwav, hww⟩
    rcases hp : pick_cell_randomly s rs with ⟨o, rs'⟩
    cases o with
    | none =>
      have : find_available_cells s = [] := pick_fst_none s rs (by rw [hp])
      rw [this] at hwav
      simp at hwav
    | some c =>
      have hcav : c ∈ find_available_cells s := pick_some_mem s rs rs' c hp
      have hsc : s c.1 c.2 = 0 := (mem_avail_iff s c).mp hcav
      have hbc : b c.1 c.2 = 0 := by
        rcases hs c.1 c.2 with h' | ⟨hb, _⟩
        · rw [← h']; exact hsc
        · exact hb
      by_cases hw : check_winner (assign_cell s c h) h = true
      · rw [scan_succ_win f b s m h rs rs' c hp hw]
      · rw [Bool.not_eq_true] at hw
        have hwc : w ≠ c := by
          intro heq
          subst heq
          exact absurd (transfer_up b s w h hv0 hs hww) (by rw [hw]; simp)
        rw [scan_succ_step f b s m h rs rs' c hp hw]
        refine ih b _ m h rs' (scratch_ok_assign_tracker b s c hs hbc) hv0 hv ?_ ?_
        · have := avail_tracker_length s c hcav
          omega
        · exact ⟨w, mem_avail_tracker s c w hwav hwc, hww⟩

theorem exists_winning_cell_iff (b : Board) (p : Player) :
    exists_winning_cell b p = true ↔
      ∃ c ∈ find_available_cells b, check_winner (assign_cell b c p) p = true := by
  unfold exists_winning_cell
  rw [List.any_eq_true]

theorem exists_winning_cell_of (b : Board) (c : Pos) (p : Player) (hc : b c.1 c.2 = 0)
    (hw : check_winner (assign_cell b c p) p = true) : exists_winning_cell b p = true :=
  (exists_winning_cell_iff b p).mpr ⟨c, (mem_avail_iff b c).mpr hc, hw⟩

theorem offensive_move_def (b : Board) (p : Player) (rs : List Nat) :
    offensive_move b p rs = scan_for_win 9 b b p p rs := rfl

theorem defensive_move_def (b : Board) (p : Player) (rs : List Nat) :
    defensive_move b p rs = scan_for_win 9 b b p (choose_opponent p) rs := rfl

theorem choose_opponent_vals (p : Player)
    (hp2 : p.property_value = 1 ∨ p.property_value = -1) :
    (choose_opponent p).property_value = 1 ∨ (choose_opponent p).property_value = -1 := by
  rcases hp2 with h | h <;> simp [choose_opponent, h, P1, P2]

theorem random_move_some (b : Board) (p : Player) (rs rs' : List Nat) (c : Pos)
    (hp : pick_cell_randomly b rs = (some c, rs')) :
    random_move b p rs = (assign_cell b c p, true, rs') := by
  rw [random_move, hp]

theorem random_move_none (b : Board) (p : Player) (rs rs' : List Nat)
    (hp : pick_cell_randomly b rs = (none, rs')) :
    random_move b p rs = (b, false, rs') := by
  rw [random_move, hp]

theorem fill_cell_eq_offense (b : Board) (p : Player) (rs : List Nat) (b1 : Board)
    (rs1 : List Nat) (ho : offensive_move b p rs = (b1, true, rs1)) :
    fill_cell b p rs = (b1, Status.OFFENSE, rs1) := by
  rw [fill_cell, ho]

theorem fill_cell_eq_defense (b : Board) (p : Player) (rs : List Nat) (b1 b2 : Board)
    (rs1 rs2 : List Nat) (ho : offensive_move b p rs = (b1, false, rs1))
    (hd : defensive_move b1 p rs1 = (b2, true, rs2)) :
    fill_cell b p rs = (b2, Status.DEFENSE, rs2) := by
  rw [fill_cell, ho]
  dsimp only
  rw [hd]

theorem fill_cell_eq_random (b : Board) (p : Player) (rs : List Nat) (b1 b2 b3 : Board)
    (rs1 rs2 rs3 : List Nat) (ho : offensive_move b p rs = (b1, false, rs1))
    (hd : defensive_move b1 p rs1 = (b2, false, rs2))
    (hr : random_move b2 p rs2 = (b3, true, rs3)) :
    fill_cell b p rs = (b3, Status.RANDOM, rs3) := by
  rw [fill_cell, ho]
  dsimp only
  rw [hd]
  dsimp only
  rw [hr]

theorem fill_cell_eq_full (b : Board) (p : Player) (rs : List Nat) (b1 b2 b3 : Board)
    (rs1 rs2 rs3 : List Nat) (ho : offensive_move b p rs = (b1, false, rs1))
    (hd : defensive_move b1 p rs1 = (b2, false, rs2))
    (hr : random_move b2 p rs2 = (b3, false, rs3)) :
    fill_cell b p rs = (b3, Status.FULL, rs3) := by
  rw [fill_cell, ho]
  dsimp only
  rw [hd]
  dsimp only
  rw [hr]

/-- C1 (amended): for every board, every random sequence and every player
whose mark value differs from the scratch sentinel 101, if a winning
placement exists for the player then fill_cell reports a winning move
(OFFENSE) and the real board afterwards satisfies check_winner for that
player. -/
theorem fill_cell_winning_move (b : Board) (p : Player) (rs : List Nat)
    (hv : p.property_value ≠ 101) (hw : exists_winning_cell b p = true) :
    (fill_cell b p rs).2.1 = Status.OFFENSE ∧
      check_winner (fill_cell b p rs).1 p = true := by
  by_cases hv0 : p.property_value = 0
  · obtain ⟨c, hcav, hcw⟩ := (exists_winning_cell_iff b p).mp hw
    have hcb : b c.1 c.2 = 0 := (mem_avail_iff b c).mp hcav
    have hbb : check_winner b p = true := by
      rw [← assign_cell_id b c p hv0 hcb]
      exact hcw
    rcases hp : pick_cell_randomly b rs with ⟨o, rs'⟩
    cases o with
    | none =>
      have hnil : find_available_cells b = [] := pick_fst_none b rs (by rw [hp])
      rw [hnil] at hcav
      simp at hcav
    | some c0 =>
      have hc0 : b c0.1 c0.2 = 0 := (mem_avail_iff b c0).mp (pick_some_mem b rs rs' c0 hp)
      have hw0 : check_winner (assign_cell b c0 p) p = true := by
        rw [assign_cell_id b c0 p hv0 hc0]
        exact hbb
      have hoff : offensive_move b p rs = (assign_cell b c0 p, true, rs') := by
        rw [offensive_move_def]
        exact scan_succ_win 8 b b p p rs rs' c0 hp hw0
      rw [fill_cell_eq_offense b p rs _ _ hoff]
      exact ⟨rfl, hw0⟩
  · have ht : (offensive_move b p rs).2.1 = true := by
      rw [offensive_move_def]
      exact scan_complete 9 b b p p rs (scratch_ok_refl b) hv0 hv (avail_length_le b)
        ((exists_winning_cell_iff b p).mp hw)
    obtain ⟨c, hcb, hfst, hcw⟩ :=
      scan_win_sound 9 b b p p rs (scratch_ok_refl b) hv (by rw [← offensive_move_def]; exact ht)
    rcases ho : offensive_move b p rs with ⟨b1, ok1, rs1⟩
    rw [offensive_move_def] at ho
    rw [offensive_move_def, ho] at ht
    rw [ho] at hfst
    cases ok1 with
    | false => simp at ht
    | true =>
      have hoff : offensive_move b p rs = (b1, true, rs1) := by
        rw [offensive_move_def]
        exact ho
      rw [fill_cell_eq_offense b p rs _ _ hoff]
      refine ⟨rfl, ?_⟩
      have hb1 : b1 = assign_cell b c p := hfst
      rw [hb1]
      exact hcw

/-- Witness for C1: on board_w1 the player P1 has a winning placement, and
fill_cell reports OFFENSE and produces a board won by P1. -/
theorem fill_cell_winning_move_witness :
    (fill_cell board_w1 P1 []).2.1 = Status.OFFENSE ∧
      check_winner (fill_cell board_w1 P1 []).1 P1 = true :=
  fill_cell_winning_move board_w1 P1 [] (by decide) (by decide)

/-- C1 counterexample: for the player attempts_tracker (mark value 101, a
constructible Player of the program), a winning placement exists on
board_c1, and with the random sequence [1, 3] fill_cell reports OFFENSE yet
commits a non-winning cell, so check_winner is false on the real board
afterwards, refuting the claim for arbitrary players. -/
theorem fill_cell_winning_move_cex :
    exists_winning_cell board_c1 attempts_tracker = true ∧
      (fill_cell board_c1 attempts_tracker [1, 3]).2.1 = Status.OFFENSE ∧
      check_winner (fill_cell board_c1 attempts_tracker [1, 3]).1 attempts_tracker = false := by
  decide

/-- C2: for every board and every random sequence, when the acting player is
one of the two players in play (mark value 1 or -1), no winning placement
exists for the acting player, and one exists for the opponent, fill_cell
reports a blocking move (DEFENSE) and commits the acting player's own mark
at a cell where the opponent's mark would have won. -/
theorem fill_cell_blocking_move (b : Board) (p : Player) (rs : List Nat)
    (hp2 : p.property_value = 1 ∨ p.property_value = -1)
    (hno : exists_winning_cell b p = false)
    (hopp : exists_winning_cell b (choose_opponent p) = true) :
    (fill_cell b p rs).2.1 = Status.DEFENSE ∧
      ∃ c : Pos, b c.1 c.2 = 0 ∧ (fill_cell b p rs).1 = assign_cell b c p ∧
        check_winner (assign_cell b c (choose_opponent p)) (choose_opponent p) = true := by
  have hv : p.property_value ≠ 101 := by
    rcases hp2 with h | h <;> rw [h] <;> decide
  have hov := choose_opponent_vals p hp2
  have hov0 : (choose_opponent p).property_value ≠ 0 := by
    rcases hov with h | h <;> rw [h] <;> decide
  have hov101 : (choose_opponent p).property_value ≠ 101 := by
    rcases hov with h | h <;> rw [h] <;> decide
  rcases ho : offensive_move b p rs with ⟨b1, ok1, rs1⟩
  cases ok1 with
  | true =>
    obtain ⟨c, hcb, _, hcw⟩ :=
      scan_win_sound 9 b b p p rs (scratch_ok_refl b) hv
        (by rw [← offensive_move_def, ho])
    rw [exists_winning_cell_of b c p hcb hcw] at hno
    simp at hno
  | false =>
    have hb1 : b1 = b := by
      have := scan_false_fst 9 b b p p rs (by rw [← offensive_move_def, ho])
      rw [← offensive_move_def, ho] at this
      exact this
    subst hb1
    have ht : (defensive_move b1 p rs1).2.1 = true := by
      rw [defensive_move_def]
      exact scan_complete 9 b1 b1 p (choose_opponent p) rs1 (scratch_ok_refl b1) hov0 hov101
        (avail_length_le b1) ((exists_winning_cell_iff b1 (choose_opponent p)).mp hopp)
    obtain ⟨c, hcb, hfst, hcw⟩ :=
      scan_win_sound 9 b1 b1 p (choose_opponent p) rs1 (scratch_ok_refl b1) hov101
        (by rw [← defensive_move_def]; exact ht)
    rcases hd : defensive_move b1 p rs1 with ⟨b2, ok2, rs2⟩
    rw [defensive_move_def] at hd
    rw [defensive_move_def, hd] at ht
    rw [hd] at hfst
    cases ok2 with
    | false => simp at ht
    | true =>
      rw [fill_cell_eq_defense b1 p rs b1 b2 rs1 rs2 ho (by rw [defensive_move_def, hd])]
      exact ⟨rfl, c, hcb, hfst, hcw⟩

/-- Witness for C2: P1 has no winning placement on board_w2, its opponent P2
does, and fill_cell reports DEFENSE, committing a blocking cell. -/
theorem fill_cell_blocking_move_witness :
    (P1.property_value = 1 ∨ P1.property_value = -1) ∧
      exists_winning_cell board_w2 P1 = false ∧
      exists_winning_cell board_w2 (choose_opponent P1) = true ∧
      ((fill_cell board_w2 P1 []).2.1 = Status.DEFENSE ∧
        ∃ c : Pos, board_w2 c.1 c.2 = 0 ∧
          (fill_cell board_w2 P1 []).1 = assign_cell board_w2 c P1 ∧
          check_winner (assign_cell board_w2 c (choose_opponent P1)) (choose_opponent P1)
            = true) :=
  ⟨by decide, by decide, by decide,
    fill_cell_blocking_move board_w2 P1 [] (by decide) (by decide) (by decide)⟩

/-- C7: for every board, player and random sequence, fill_cell returns FULL
exactly when the board has no empty cell, and in that case the real board is
returned unchanged; with at least one empty cell the status is never FULL. -/
theorem fill_cell_full_iff (b : Board) (p : Player) (rs : List Nat) :
    ((fill_cell b p rs).2.1 = Status.FULL ↔ find_available_cells b = []) ∧
      ((fill_cell b p rs).2.1 = Status.FULL → (fill_cell b p rs).1 = b) := by
  by_cases hav : find_available_cells b = []
  · have hpk : pick_cell_randomly b rs = (none, rs) := pick_none_of_nil b rs hav
    have ho : offensive_move b p rs = (b, false, rs) := by
      rw [offensive_move_def]
      exact scan_succ_none 8 b b p p rs rs hpk
    have hd : defensive_move b p rs = (b, false, rs) := by
      rw [defensive_move_def]
      exact scan_succ_none 8 b b p (choose_opponent p) rs rs hpk
    have hr : random_move b p rs = (b, false, rs) := random_move_none b p rs rs hpk
    rw [fill_cell_eq_full b p rs b b b rs rs rs ho hd hr]
    exact ⟨⟨fun _ => hav, fun _ => rfl⟩, fun _ => rfl⟩
  · suffices hne : (fill_cell b p rs).2.1 ≠ Status.FULL by
      exact ⟨⟨fun hF => absurd hF hne, fun hnil => absurd hnil hav⟩,
        fun hF => absurd hF hne⟩
    rcases ho : offensive_move b p rs with ⟨b1, ok1, rs1⟩
    cases ok1 with
    | true =>
      rw [fill_cell_eq_offense b p rs _ _ ho]
      simp
    | false =>
      have hb1 : b1 = b := by
        have := scan_false_fst 9 b b p p rs (by rw [← offensive_move_def, ho])
        rw [← offensive_move_def, ho] at this
        exact this
      subst hb1
      rcases hd : defensive_move b1 p rs1 with ⟨b2, ok2, rs2⟩
      cases ok2 with
      | true =>
        rw [fill_cell_eq_defense b1 p rs b1 b2 rs1 rs2 ho hd]
        simp
      | false =>
        have hb2 : b2 = b1 := by
          have := scan_false_fst 9 b1 b1 p (choose_opponent p) rs1
            (by rw [← defensive_move_def, hd])
          rw [← defensive_move_def, hd] at this
          exact this
        subst hb2
        rcases hpk : pick_cell_randomly b2 rs2 with ⟨o, rs3⟩
        cases o with
        | none => exact absurd (pick_fst_none b2 rs2 (by rw [hpk])) hav
        | some c =>
          rw [fill_cell_eq_random b2 p rs b2 b2 (assign_cell b2 c p) rs1 rs2 rs3 ho hd
            (random_move_some b2 p rs2 rs3 c hpk)]
          simp

/-- Witness for C7: on the full board board_w7, fill_cell reports FULL and
leaves the board unchanged; the iff is instantiated in both directions. -/
theorem fill_cell_full_iff_witness :
    (fill_cell board_w7 P2 [4, 2]).2.1 = Status.FULL ∧
      (fill_cell board_w7 P2 [4, 2]).1 = board_w7 :=
  ⟨(fill_cell_full_iff board_w7 P2 [4, 2]).1.mpr (by decide),
    (fill_cell_full_iff board_w7 P2 [4, 2]).2
      ((fill_cell_full_iff board_w7 P2 [4, 2]).1.mpr (by decide))⟩

/-- C8: for every board, player and random sequence, a call to fill_cell
either leaves the real board unchanged or changes exactly one cell, a cell
that was empty immediately beforehand, to the acting player's mark value
(every other cell keeps its previous value, assign_cell rewriting only the
committed cell). -/
theorem fill_cell_frame (b : Board) (p : Player) (rs : List Nat) :
    (fill_cell b p rs).1 = b ∨
      ∃ c : Pos, b c.1 c.2 = 0 ∧ (fill_cell b p rs).1 = assign_cell b c p := by
  rcases ho : offensive_move b p rs with ⟨b1, ok1, rs1⟩
  cases ok1 with
  | true =>
    obtain ⟨c, hcb, hfst⟩ :=
      scan_commit 9 b b p p rs (scratch_ok_refl b) (by rw [← offensive_move_def, ho])
    rw [← offensive_move_def, ho] at hfst
    rw [fill_cell_eq_offense b p rs _ _ ho]
    exact Or.inr ⟨c, hcb, hfst⟩
  | false =>
    have hb1 : b1 = b := by
      have := scan_false_fst 9 b b p p rs (by rw [← offensive_move_def, ho])
      rw [← offensive_move_def, ho] at this
      exact this
    subst hb1
    rcases hd : defensive_move b1 p rs1 with ⟨b2, ok2, rs2⟩
    cases ok2 with
    | true =>
      obtain ⟨c, hcb, hfst⟩ :=
        scan_commit 9 b1 b1 p (choose_opponent p) rs1 (scratch_ok_refl b1)
          (by rw [← defensive_move_def, hd])
      rw [← defensive_move_def, hd] at hfst
      rw [fill_cell_eq_defense b1 p rs b1 b2 rs1 rs2 ho hd]
      exact Or.inr ⟨c, hcb, hfst⟩
    | false =>
      have hb2 : b2 = b1 := by
        have := scan_false_fst 9 b1 b1 p (choose_opponent p) rs1
          (by rw [← defensive_move_def, hd])
        rw [← defensive_move_def, hd] at this
        exact this
      subst hb2
      rcases hpk : pick_cell_randomly b2 rs2 with ⟨o, rs3⟩
      cases o with
      | none =>
        rw [fill_cell_eq_full b2 p rs b2 b2 b2 rs1 rs2 rs3 ho hd
          (random_move_none b2 p rs2 rs3 hpk)]
        exact Or.inl rfl
      | some c =>
        rw [fill_cell_eq_random b2 p rs b2 b2 (assign_cell b2 c p) rs1 rs2 rs3 ho hd
          (random_move_some b2 p rs2 rs3 c hpk)]
        exact Or.inr ⟨c, (mem_avail_iff b2 c).mp (pick_some_mem b2 rs2 rs3 c hpk), rfl⟩

/-- C10: the defensive search determines its opponent solely from whether
the acting player's mark value equals 1 (P2 then, P1 otherwise); hence for
an acting player of mark value 2 whose actual adversary is P2, the search
simulates P1's marks: on board_c10, where a winning placement for P2 exists,
fill_cell never blocks and returns RANDOM for every random sequence. -/
theorem defensive_wrong_opponent :
    (∀ (b : Board) (p : Player) (rs : List Nat),
        defensive_move b p rs
          = scan_for_win 9 b b p (if p.property_value = 1 then P2 else P1) rs) ∧
      choose_opponent playerQ = P1 ∧
      exists_winning_cell board_c10 P2 = true ∧
      ∀ rs : List Nat, (fill_cell board_c10 playerQ rs).2.1 = Status.RANDOM := by
  refine ⟨fun b p rs => rfl, rfl, by decide, fun rs => ?_⟩
  have hvQ : playerQ.property_value ≠ 101 := by decide
  have hnoQ : exists_winning_cell board_c10 playerQ = false := by decide
  have hnoP1 : exists_winning_cell board_c10 (choose_opponent playerQ) = false := by decide
  rcases ho : offensive_move board_c10 playerQ rs with ⟨b1, ok1, rs1⟩
  cases ok1 with
  | true =>
    obtain ⟨c, hcb, _, hcw⟩ :=
      scan_win_sound 9 board_c10 board_c10 playerQ playerQ rs (scratch_ok_refl board_c10)
        hvQ (by rw [← offensive_move_def, ho])
    rw [exists_winning_cell_of board_c10 c playerQ hcb hcw] at hnoQ
    simp at hnoQ
  | false =>
    have hb1 : b1 = board_c10 := by
      have := scan_false_fst 9 board_c10 board_c10 playerQ playerQ rs
        (by rw [← offensive_move_def, ho])
      rw [← offensive_move_def, ho] at this
      exact this
    subst hb1
    rcases hd : defensive_move board_c10 playerQ rs1 with ⟨b2, ok2, rs2⟩
    cases ok2 with
    | true =>
      obtain ⟨c, hcb, _, hcw⟩ :=
        scan_win_sound 9 board_c10 board_c10 playerQ (choose_opponent playerQ) rs1
          (scratch_ok_refl board_c10) (by decide) (by rw [← defensive_move_def, hd])
      rw [exists_winning_cell_of board_c10 c (choose_opponent playerQ) hcb hcw] at hnoP1
      simp at hnoP1
    | false =>
      have hb2 : b2 = board_c10 := by
        have := scan_false_fst 9 board_c10 board_c10 playerQ (choose_opponent playerQ) rs1
          (by rw [← defensive_move_def, hd])
        rw [← defensive_move_def, hd] at this
        exact this
      subst hb2
      rcases hpk : pick_cell_randomly board_c10 rs2 with ⟨o, rs3⟩
      cases o with
      | none =>
        have hnil : find_available_cells board_c10 = [] :=
          pick_fst_none board_c10 rs2 (by rw [hpk])
        have h02 : ((0 : Fin 3), (2 : Fin 3)) ∈ find_available_cells board_c10 :=
          (mem_avail_iff _ _).mpr (by decide)
        rw [hnil] at h02
        simp at h02
      | some c =>
        rw [fill_cell_eq_random board_c10 playerQ rs board_c10 board_c10
          (assign_cell board_c10 c playerQ) rs1 rs2 rs3 ho hd
          (random_move_some board_c10 playerQ rs2 rs3 c hpk)]

/-- C3 amended: the Empty mark (value 0) is reported as a winner by
check_winner exactly when some row, column or diagonal of the board is
entirely empty; in particular it is not always false. -/
theorem check_winner_empty_iff (b : Board) (p : Player) (hp : p.property_value = 0) :
    check_winner b p = true ↔ ∃ l ∈ lines, ∀ c ∈ l, b c.1 c.2 = 0 := by
  rw [check_winner_iff, hp]

/-- Witness for the amended C3 at a concrete board: the all-empty board has
an entirely empty line, and check_winner with the Empty mark is true there. -/
theorem check_winner_empty_iff_witness :
    (⟨"Empty", 0⟩ : Player).property_value = 0 ∧
      (check_winner create_board ⟨"Empty", 0⟩ = true ↔
        ∃ l ∈ lines, ∀ c ∈ l, create_board c.1 c.2 = 0) :=
  ⟨rfl, check_winner_empty_iff create_board ⟨"Empty", 0⟩ rfl⟩

/-- C3 counterexample: on the freshly created all-empty board, check_winner
applied with a player carrying the Empty mark (value 0) returns true, not
false: an all-empty line is reported as a win for Empty. -/
theorem check_winner_empty_cex :
    check_winner create_board ⟨"Empty", 0⟩ = true := by
  decide

/-- C5: resolving a move outcome into the meta state: OFFENSE records the
player's mark value at the position; FULL replaces the instance board there
with a board of zero non-empty cells and clears the meta result to Empty;
DEFENSE and RANDOM leave the meta board and the meta results unchanged. -/
theorem resolve_spec (mb : MetaBoard) (mr : Board) (pos : Pos) (p : Player) :
    (resolve mb mr pos Status.OFFENSE p).2 pos.1 pos.2 = p.property_value ∧
      (∀ i j : Fin 3, (resolve mb mr pos Status.FULL p).1 pos.1 pos.2 i j = 0) ∧
      (resolve mb mr pos Status.FULL p).2 pos.1 pos.2 = 0 ∧
      resolve mb mr pos Status.DEFENSE p = (mb, mr) ∧
      resolve mb mr pos Status.RANDOM p = (mb, mr) := by
  obtain ⟨pi, pj⟩ := pos
  refine ⟨?_, ?_, ?_, rfl, rfl⟩
  · simp [resolve, update_meta_results]
  · intro i j
    simp [resolve, reset_board, create_board]
  · simp [resolve, reset_board]

theorem take_rand_length_le (rs : List Nat) : (take_rand rs).2.length ≤ rs.length := by
  cases rs <;> simp [take_rand]

theorem choose_board_cons (mb : MetaBoard) (mr : Board) (rx : Nat) (rs : List Nat) :
    choose_board mb mr (rx :: rs) =
      if (if is_board_complete mr then
            reset_board mb mr (⟨rx % 3, by omega⟩, ⟨(take_rand rs).1 % 3, by omega⟩)
          else (mb, mr)).2 ⟨rx % 3, by omega⟩ ⟨(take_rand rs).1 % 3, by omega⟩ = 0 then
        some ((if is_board_complete mr then
            reset_board mb mr (⟨rx % 3, by omega⟩, ⟨(take_rand rs).1 % 3, by omega⟩)
          else (mb, mr)).1,
          (if is_board_complete mr then
            reset_board mb mr (⟨rx % 3, by omega⟩, ⟨(take_rand rs).1 % 3, by omega⟩)
          else (mb, mr)).2,
          (⟨rx % 3, by omega⟩, ⟨(take_rand rs).1 % 3, by omega⟩), (take_rand rs).2)
      else
        choose_board
          (if is_board_complete mr then
            reset_board mb mr (⟨rx % 3, by omega⟩, ⟨(take_rand rs).1 % 3, by omega⟩)
          else (mb, mr)).1
          (if is_board_complete mr then
            reset_board mb mr (⟨rx % 3, by omega⟩, ⟨(take_rand rs).1 % 3, by omega⟩)
          else (mb, mr)).2
          (take_rand rs).2 := by
  cases rs <;> rfl

theorem choose_board_spec_aux : ∀ (n : Nat) (rs : List Nat), rs.length ≤ n →
    ∀ (mb : MetaBoard) (mr : Board) (mb' : MetaBoard) (mr' : Board) (pos : Pos)
      (rs' : List Nat), choose_board mb mr rs = some (mb', mr', pos, rs') →
      mr' pos.1 pos.2 = 0 ∧
        (is_board_complete mr = false → mb' = mb ∧ mr' = mr) ∧
        (is_board_complete mr = true → (mb', mr') = reset_board mb mr pos) := by
  intro n
  induction n with
  | zero =>
    intro rs hlen mb mr mb' mr' pos rs' h
    rw [List.length_eq_zero.mp (Nat.le_zero.mp hlen)] at h
    simp [choose_board] at h
  | succ n ih =>
    intro rs hlen mb mr mb' mr' pos rs' h
    cases rs with
    | nil => simp [choose_board] at h
    | cons rx rs0 =>
      rw [choose_board_cons] at h
      by_cases hc : is_board_complete mr = true
      · rw [hc] at h
        simp only [eq_self_iff_true, if_true] at h
        rw [if_pos (by simp [reset_board])] at h
        simp only [Option.some.injEq, Prod.mk.injEq] at h
        obtain ⟨hmb, hmr, hpos, hrs⟩ := h
        subst hmb hmr hpos
        refine ⟨by simp [reset_board], fun hfc => ?_, fun _ => rfl⟩
        rw [hc] at hfc
        simp at hfc
      · rw [Bool.not_eq_true] at hc
        rw [hc] at h
        simp only [Bool.false_eq_true, if_false] at h
        by_cases hz : mr ⟨rx % 3, by omega⟩ ⟨(take_rand rs0).1 % 3, by omega⟩ = 0
        · rw [if_pos hz] at h
          simp only [Option.some.injEq, Prod.mk.injEq] at h
          obtain ⟨hmb, hmr, hpos, hrs⟩ := h
          subst hmb hmr hpos
          exact ⟨hz, fun _ => ⟨rfl, rfl⟩, fun hfc => by rw [hfc] at hc; simp at hc⟩
        · rw [if_neg hz] at h
          have hlen0 : (take_rand rs0).2.length ≤ n := by
            have h1 := take_rand_length_le rs0
            simp only [List.length_cons] at hlen
            omega
          exact ih (take_rand rs0).2 hlen0 mb mr mb' mr' pos rs' h

/-- C4: whenever the active-instance selector returns, the returned position
has an Empty meta result in the returned grid; when the meta results grid is
not fully decided the selector changes neither the meta board nor the meta
results (it only retries); when the grid is fully decided, the returned
state is exactly the input state with the first drawn position reset. -/
theorem choose_board_spec (mb : MetaBoard) (mr : Board) (rs : List Nat)
    (mb' : MetaBoard) (mr' : Board) (pos : Pos) (rs' : List Nat)
    (h : choose_board mb mr rs = some (mb', mr', pos, rs')) :
    mr' pos.1 pos.2 = 0 ∧
      (is_board_complete mr = false → mb' = mb ∧ mr' = mr) ∧
      (is_board_complete mr = true → (mb', mr') = reset_board mb mr pos) :=
  choose_board_spec_aux rs.length rs (Nat.le_refl _) mb mr mb' mr' pos rs' h

/-- Witness for C4: on the fresh meta state the first draw lands on an
undecided position and the state is returned unchanged. -/
theorem choose_board_spec_witness :
    create_board ((0 : Fin 3), (0 : Fin 3)).1 ((0 : Fin 3), (0 : Fin 3)).2 = 0 ∧
      ((fun _ _ => create_board) : MetaBoard) = (fun _ _ => create_board) ∧
      create_board = create_board :=
  by
    have h := choose_board_spec (fun _ _ => create_board) create_board [0, 0]
      (fun _ _ => create_board) create_board ((0 : Fin 3), (0 : Fin 3)) [] (by decide)
    exact ⟨h.1, h.2.1 (by decide)⟩

/-- C9 counterexample: the retry loop is not bounded by the finite grid: on a
grid with a single decided position, a random sequence of one hundred zeros
(fifty retries, far beyond the nine grid positions) keeps drawing the
decided position and the selector never reaches an Empty one. -/
theorem choose_board_unbounded_cex :
    is_board_complete mr_c9 = false ∧
      mr_c9 (1 : Fin 3) (1 : Fin 3) = 0 ∧
      choose_board meta_board0 mr_c9 (List.replicate 100 0) = none := by
  decide

/-- C9 (amended): for every meta state some random sequence makes the
selector succeed after a single draw of a position: active-instance
selection can always succeed (and under uniform randomness succeeds with
probability one), though no bound uniform in the random sequence exists. -/
theorem choose_board_exists_success (mb : MetaBoard) (mr : Board) :
    ∃ rs : List Nat, (choose_board mb mr rs).isSome = true := by
  by_cases hc : is_board_complete mr = true
  · refine ⟨[0, 0], ?_⟩
    rw [choose_board_cons]
    simp [hc, reset_board, take_rand]
  · have hex : ∃ x y : Fin 3, mr x y = 0 := by
      by_contra hno
      push_neg at hno
      apply hc
      unfold is_board_complete
      simp only [ne_eq, decide_eq_true_eq]
      intro i j
      exact hno i j
    obtain ⟨x, y, hxy⟩ := hex
    rw [Bool.not_eq_true] at hc
    refine ⟨[x.val, y.val], ?_⟩
    rw [choose_board_cons]
    have hx : (⟨x.val % 3, by omega⟩ : Fin 3) = x := Fin.ext (Nat.mod_eq_of_lt x.isLt)
    have hy : (⟨y.val % 3, by omega⟩ : Fin 3) = y := Fin.ext (Nat.mod_eq_of_lt y.isLt)
    simp [hc, take_rand, hx, hy, hxy]

/-- C6 (amended): the bot driver loop returns only module players; whenever
it returns a winner, that winner's mark holds a three-in-a-row line on the
final meta results grid (so it terminates exactly at a head test where some
mark holds a meta line, reporting the player holding it); and at a state
whose meta results grid already holds a line, it exits at once, with the
state unchanged and without applying any further move. -/
theorem play_loop_terminal :
    (∀ (fuel : Nat) (mb : MetaBoard) (mr : Board) (player : Player) (pos : Pos)
        (status : Status) (rs : List Nat) (w : Player) (mbF : MetaBoard) (mrF : Board),
        play_loop fuel mb mr player pos status rs = some (w, mbF, mrF) →
        (w = P1 ∨ w = P2) ∧ check_winner mrF w = true) ∧
      ∀ (fuel : Nat) (mb : MetaBoard) (mr : Board) (player : Player) (pos : Pos)
        (status : Status) (rs : List Nat),
        (check_winner mr P1 || check_winner mr P2) = true →
        play_loop fuel mb mr player pos status rs
          = some (if check_winner mr P2 = true then P2 else P1, mb, mr) := by
  constructor
  · intro fuel
    induction fuel with
    | zero =>
      intro mb mr player pos status rs w mbF mrF h
      rw [play_loop] at h
      split at h
      · simp at h
      · split at h
        · rename_i hcond1 hcond2
          simp only [Option.some.injEq, Prod.mk.injEq] at h
          obtain ⟨hw, hmb, hmr⟩ := h
          subst hw hmb hmr
          exact ⟨Or.inr rfl, hcond2⟩
        · rename_i hcond1 hcond2
          simp only [Option.some.injEq, Prod.mk.injEq] at h
          obtain ⟨hw, hmb, hmr⟩ := h
          subst hw hmb hmr
          rw [Bool.not_eq_true] at hcond2
          refine ⟨Or.inl rfl, ?_⟩
          rcases Bool.eq_false_or_eq_true (check_winner mr P1) with ht | hf
          · exact ht
          · exact absurd ⟨hf, hcond2⟩ hcond1
    | succ f ih =>
      intro mb mr player pos status rs w mbF mrF h
      rw [play_loop] at h
      split at h
      · dsimp only at h
        rcases hcb : choose_board (resolve mb mr pos status player).1
            (resolve mb mr pos status player).2 (choose_player (some player) rs).2 with
          _ | ⟨mb2, mr2, pos2, rs2⟩
        · rw [hcb] at h
          simp at h
        · rw [hcb] at h
          dsimp only at h
          exact ih _ _ _ _ _ _ _ _ _ h
      · split at h
        · rename_i hcond1 hcond2
          simp only [Option.some.injEq, Prod.mk.injEq] at h
          obtain ⟨hw, hmb, hmr⟩ := h
          subst hw hmb hmr
          exact ⟨Or.inr rfl, hcond2⟩
        · rename_i hcond1 hcond2
          simp only [Option.some.injEq, Prod.mk.injEq] at h
          obtain ⟨hw, hmb, hmr⟩ := h
          subst hw hmb hmr
          rw [Bool.not_eq_true] at hcond2
          refine ⟨Or.inl rfl, ?_⟩
          rcases Bool.eq_false_or_eq_true (check_winner mr P1) with ht | hf
          · exact ht
          · exact absurd ⟨hf, hcond2⟩ hcond1
  · intro fuel mb mr player pos status rs hwon
    have hnc : ¬(check_winner mr P1 = false ∧ check_winner mr P2 = false) := by
      intro ⟨ha, hb⟩
      rw [ha, hb] at hwon
      simp at hwon
    cases fuel with
    | zero =>
      rw [play_loop, if_neg hnc]
      split <;> rfl
    | succ f =>
      rw [play_loop, if_neg hnc]
      split <;> rfl

/-- C6 counterexample: entering the loop with P1's line-completing OFFENSE
move still unresolved (no meta line held yet), the driver resolves it so the
meta result (0,2) becomes 1 and P1's top meta row is complete, but it then
still applies one further instance-board move: P2 fills the empty cell
(2,2) of instance (1,0), turning it from 0 to -1, before the loop head
detects P1's line and reports P1.  This refutes the claim that no further
instance-board move is made once a mark has three meta cells in a line. -/
theorem play_loop_extra_move_cex :
    check_winner mr_c6 P1 = false ∧ check_winner mr_c6 P2 = false ∧
      mb_c6 1 0 2 2 = 0 ∧
      (play_loop 2 mb_c6 mr_c6 P1 ((0 : Fin 3), (2 : Fin 3)) Status.OFFENSE rs_c6).map
          (fun t => (t.1, t.2.2 0 2, t.2.1 1 0 2 2))
        = some (P1, 1, -1) := by
  decide

/-- Witness for C6: from a state whose meta results grid holds P1's line,
the loop reports P1, and the reported winner holds a line on the final
grid. -/
theorem play_loop_terminal_witness :
    (P1 = P1 ∨ P1 = P2) ∧ check_winner mr_w6 P1 = true :=
  play_loop_terminal.1 0 meta_board0 mr_w6 P2 ((0 : Fin 3), (0 : Fin 3)) Status.RANDOM []
    P1 meta_board0 mr_w6 (by decide)

end TicTacToe
